import Mathlib

/-!
Shallow embedding of the Cloudflare programmable rate limiter
(`src/index.ts`): the `Configuration` normalization, the token `Bucket`,
and the per-identifier decision engine (`Counter`).

JavaScript numbers are modelled as rationals (`ℚ`), with `NaN` made
explicit where coercion can produce it (`JSNum`).  `Math.floor` is
`Int.floor`.  The engine's mutable state (`last` timestamp plus the
bucket) is threaded explicitly as `ActorState`; persistence is modelled
by returning the updated state together with the verdict
(`true` = HTTP 200 / Allow, `false` = HTTP 429 / Deny).
-/

/-- A JavaScript number: either `NaN` or an ordinary (rational) value.
Infinities are not modelled; no code path here produces them from
finite inputs. -/
inductive JSNum where
  | nan : JSNum
  | num : ℚ → JSNum
deriving DecidableEq

/-- JavaScript falsiness of a number: `NaN` and `0` (hence `-0`) are
falsy, every other number is truthy. -/
def JSNum.falsy : JSNum → Bool
  | .nan => true
  | .num q => q = 0

/-- Raw external value fed to the `Configuration` constructor (header
string, JWT claim, JSON field, or absent).  A string is represented by
what `Number(...)` makes of it: `strOfNum q` is any string whose numeric
parse is `q` (e.g. `"10"`, `"2.5"`, `"-5"`, and `""` parses to `0`);
`strBad` is any string that parses to `NaN` (e.g. `"abc"`). -/
inductive Raw where
  | null : Raw
  | undef : Raw
  | jsnum : JSNum → Raw
  | strOfNum : ℚ → Raw
  | strBad : Raw
deriving DecidableEq

/-- JavaScript `Number(x)` coercion on the raw inputs we model:
`Number(null) = 0`, `Number(undefined) = NaN`, numbers pass through,
strings parse (possibly to `NaN`). -/
def toNumber : Raw → JSNum
  | .null => .num 0
  | .undef => .nan
  | .jsnum j => j
  | .strOfNum q => .num q
  | .strBad => .nan

/-- `Number(x) || null` — the exact normalization expression in the
`Configuration` constructor (src/index.ts:317-318): a falsy coercion
result (`0` or `NaN`) collapses to `null`, anything else is kept. -/
def jsNormalize (r : Raw) : Option JSNum :=
  let j := toNumber r
  if j.falsy then none else some j

/-- Extract the rational value of a `JSNum` (`NaN` defaults to `0`;
`jsNormalize` provably never emits `NaN`, see the normalization
theorems). -/
def JSNum.toQ : JSNum → ℚ
  | .nan => 0
  | .num q => q

/-- The normalized numeric field stored on a `Configuration`:
`null` or a nonzero number. -/
def normalizeValue (r : Raw) : Option ℚ :=
  (jsNormalize r).map JSNum.toQ

/-- `enum Behavior { Blocking, Throttling }` — `Blocking = 0`,
`Throttling = 1`.  The field is carried as a plain JS number (it is
never validated), so we model it as an integer. -/
def Behavior.Blocking : Int := 0

/-- `Behavior.Throttling = 1`. -/
def Behavior.Throttling : Int := 1

/-- `class Configuration` (src/index.ts:305-321), after constructor
normalization. -/
structure Configuration where
  requests : Option ℚ
  per_seconds : Option ℚ
  behavior : Int
deriving DecidableEq

/-- The `Configuration` constructor: numeric coercion `Number(x) || null`
on `requests` and `per_seconds`; `behavior` stored unvalidated. -/
def Configuration.make (requests per_seconds : Raw) (behavior : Int) : Configuration :=
  ⟨normalizeValue requests, normalizeValue per_seconds, behavior⟩

/-- `class Bucket` (src/index.ts:256-303). -/
structure Bucket where
  max : ℚ
  tokens : ℚ
  active : Bool
deriving DecidableEq

/-- `new Bucket()` — the defaults `max = 0, tokens = max, active = false`. -/
def Bucket.new : Bucket := ⟨0, 0, false⟩

/-- `is_active()` (src/index.ts:274-276). -/
def Bucket.is_active (b : Bucket) : Bool := b.active

/-- `set_size(size)` (src/index.ts:279-281): replaces `max` only. -/
def Bucket.set_size (b : Bucket) (size : ℚ) : Bucket :=
  ⟨size, b.tokens, b.active⟩

/-- `take(pre)` (src/index.ts:284-297): marks the bucket active
unconditionally, returns `false` if `tokens <= 0`, otherwise consumes
one token unless peeking (`pre = true`) and returns `true`.  The result
pairs the boolean with the mutated bucket. -/
def Bucket.take (b : Bucket) (pre : Bool) : Bool × Bucket :=
  let b1 : Bucket := ⟨b.max, b.tokens, true⟩
  if b1.tokens ≤ 0 then (false, b1)
  else if pre then (true, b1)
  else (true, ⟨b1.max, b1.tokens - 1, true⟩)

/-- `fill(num)` (src/index.ts:300-302):
`tokens += Math.min(max - tokens, num)`. -/
def Bucket.fill (b : Bucket) (num : ℚ) : Bucket :=
  ⟨b.max, b.tokens + min (b.max - b.tokens) num, b.active⟩

/-- The durable per-identifier state of a `Counter`: the `last`
successful-request timestamp and the bucket (storage keys `"last"` and
`"tokens"`). -/
structure ActorState where
  last : ℚ
  bucket : Bucket
deriving DecidableEq

/-- Fresh state for a never-seen identifier: `last = 0` and a new
(inactive, zero-capacity) bucket (src/index.ts:121-131). -/
def ActorState.init : ActorState := ⟨0, Bucket.new⟩

/-- `Counter.fill_amount(tokens, seconds, time)` (src/index.ts:196-210):
`0` when no window is configured, otherwise
`floor((tokens/seconds) * floor((time - last) / 1000))`. -/
def Counter.fill_amount (tokens : ℚ) (seconds : Option ℚ) (time last : ℚ) : ℚ :=
  match seconds with
  | none => 0
  | some s =>
    let tpsf := tokens / s
    let passed : Int := ⌊(time - last) / 1000⌋
    (⌊tpsf * (passed : ℚ)⌋ : Int)

/-- `Counter.should_block(time, configuration)` (src/index.ts:216-230).
The peek `take(true)` mutates the bucket's `active` flag, so the result
pairs the verdict with the updated state. -/
def Counter.should_block (st : ActorState) (time : ℚ) (cfg : Configuration) :
    Bool × ActorState :=
  if cfg.behavior ≠ Behavior.Blocking then (false, st)
  else
    match cfg.per_seconds with
    | none => (false, st)
    | some p =>
      let tk := st.bucket.take true
      if tk.1 then (false, ⟨st.last, tk.2⟩)
      else (decide ((⌊(time - st.last) / 1000⌋ : ℚ) < p), ⟨st.last, tk.2⟩)

/-- `Counter.respond(success, time)` (src/index.ts:239-253): `last` is
updated to the request time only on success; the (updated) state is then
persisted — modelled by returning it. -/
def Counter.respond (success : Bool) (time : ℚ) (st : ActorState) : ActorState :=
  if success then ⟨time, st.bucket⟩ else st

/-- Lines 150-155 of `Counter.fetch`: the amount to fill — the full
capacity `r` for a never-used bucket, else `fill_amount`.  Evaluated
before `should_block` runs its peek, exactly as in the source (the
`set_size` preceding it does not touch the `active` flag). -/
def Counter.fillChoice (st : ActorState) (cfg : Configuration) (time r : ℚ) : ℚ :=
  if !(st.bucket.set_size r).is_active then r
  else Counter.fill_amount r cfg.per_seconds time st.last

/-- Lines 147-161 of `Counter.fetch`: set the bucket size, compute the
fill amount (`fillChoice`), and apply the fill unless `should_block`
holds. -/
def Counter.admission (st : ActorState) (cfg : Configuration) (time r : ℚ) :
    ActorState :=
  let st1 : ActorState := ⟨st.last, st.bucket.set_size r⟩
  let fa := Counter.fillChoice st cfg time r
  let sb := Counter.should_block st1 time cfg
  if sb.1 then sb.2 else ⟨sb.2.last, sb.2.bucket.fill fa⟩

/-- `Counter.fetch` (src/index.ts:135-168): the whole per-request
decision.  Returns the verdict (`true` = 200/Allow, `false` =
429/Deny) together with the persisted state. -/
def Counter.fetch (st : ActorState) (cfg : Configuration) (time : ℚ) :
    Bool × ActorState :=
  match cfg.requests with
  | none => (true, Counter.respond true time st)
  | some r =>
    let st2 := Counter.admission st cfg time r
    let tk := st2.bucket.take false
    (tk.1, Counter.respond tk.1 time ⟨st2.last, tk.2⟩)

/-- Process a list of `(configuration, timestamp)` requests in order
against one identifier's engine, collecting the verdicts and the final
persisted state. -/
def Counter.run (st : ActorState) : List (Configuration × ℚ) → List Bool × ActorState
  | [] => ([], st)
  | q :: rest =>
    let f := Counter.fetch st q.1 q.2
    let r := Counter.run f.2 rest
    (f.1 :: r.1, r.2)

/-- Final state after a list of requests. -/
def Counter.runList (st : ActorState) (reqs : List (Configuration × ℚ)) : ActorState :=
  (Counter.run st reqs).2

/-! ### Basic lemmas about the embedded operations -/

lemma Bucket.take_peek_bucket (b : Bucket) :
    (b.take true).2 = ⟨b.max, b.tokens, true⟩ := by
  by_cases h : b.tokens ≤ 0 <;> simp [Bucket.take, h]

lemma Bucket.take_peek_fst (b : Bucket) :
    (b.take true).1 = decide (0 < b.tokens) := by
  by_cases h : b.tokens ≤ 0
  · simp [Bucket.take, h, not_lt.mpr h]
  · simp [Bucket.take, h, not_le.mp h]

lemma Bucket.take_false_of_nonpos (b : Bucket) (h : b.tokens ≤ 0) :
    b.take false = (false, ⟨b.max, b.tokens, true⟩) := by
  simp [Bucket.take, h]

lemma Bucket.take_true_of_pos (b : Bucket) (h : 0 < b.tokens) :
    b.take false = (true, ⟨b.max, b.tokens - 1, true⟩) := by
  simp [Bucket.take, not_le.mpr h]

lemma Counter.fill_amount_some (r p time last : ℚ) :
    Counter.fill_amount r (some p) time last =
      ((⌊r / p * ((⌊(time - last) / 1000⌋ : ℤ) : ℚ)⌋ : ℤ) : ℚ) := rfl

lemma Counter.fill_amount_same_time (r : ℚ) (p : Option ℚ) (t : ℚ) :
    Counter.fill_amount r p t t = 0 := by
  cases p with
  | none => rfl
  | some s => rw [Counter.fill_amount_some]; simp

lemma Counter.fill_amount_nonneg (r p time last : ℚ) (hr : 0 ≤ r) (hp : 0 ≤ p)
    (h : last ≤ time) : 0 ≤ Counter.fill_amount r (some p) time last := by
  rw [Counter.fill_amount_some]
  have h1 : (0 : ℚ) ≤ (time - last) / 1000 := by
    apply div_nonneg (by linarith) (by norm_num)
  have h2 : (0 : ℤ) ≤ ⌊(time - last) / 1000⌋ := Int.le_floor.mpr (by exact_mod_cast h1)
  have h3 : (0 : ℚ) ≤ r / p * ((⌊(time - last) / 1000⌋ : ℤ) : ℚ) := by
    apply mul_nonneg (div_nonneg hr hp)
    exact_mod_cast h2
  have h4 : (0 : ℤ) ≤ ⌊r / p * ((⌊(time - last) / 1000⌋ : ℤ) : ℚ)⌋ :=
    Int.le_floor.mpr (by exact_mod_cast h3)
  exact_mod_cast h4

lemma Counter.fill_amount_int (r : ℚ) (p : Option ℚ) (time last : ℚ) :
    ∃ j : ℤ, Counter.fill_amount r p time last = (j : ℚ) := by
  cases p with
  | none => exact ⟨0, rfl⟩
  | some s => exact ⟨_, Counter.fill_amount_some r s time last⟩

lemma Counter.should_block_snd (st : ActorState) (t : ℚ) (cfg : Configuration) :
    (Counter.should_block st t cfg).2 = st ∨
    (Counter.should_block st t cfg).2 =
      ⟨st.last, ⟨st.bucket.max, st.bucket.tokens, true⟩⟩ := by
  unfold Counter.should_block
  split
  · exact Or.inl rfl
  · cases hp : cfg.per_seconds with
    | none => exact Or.inl rfl
    | some p =>
      by_cases htk : (st.bucket.take true).1 = true
      · simp only [htk, if_true]
        exact Or.inr (by rw [Bucket.take_peek_bucket])
      · rw [Bool.not_eq_true] at htk
        simp only [htk, Bool.false_eq_true, if_false]
        exact Or.inr (by rw [Bucket.take_peek_bucket])

lemma Counter.should_block_last (st : ActorState) (t : ℚ) (cfg : Configuration) :
    (Counter.should_block st t cfg).2.last = st.last := by
  rcases Counter.should_block_snd st t cfg with h | h <;> rw [h]

lemma Counter.should_block_tokens (st : ActorState) (t : ℚ) (cfg : Configuration) :
    (Counter.should_block st t cfg).2.bucket.tokens = st.bucket.tokens := by
  rcases Counter.should_block_snd st t cfg with h | h <;> rw [h]

lemma Counter.should_block_max (st : ActorState) (t : ℚ) (cfg : Configuration) :
    (Counter.should_block st t cfg).2.bucket.max = st.bucket.max := by
  rcases Counter.should_block_snd st t cfg with h | h <;> rw [h]

lemma Counter.should_block_true_imp (st : ActorState) (t : ℚ) (cfg : Configuration)
    (h : (Counter.should_block st t cfg).1 = true) : st.bucket.tokens ≤ 0 := by
  by_contra hpos
  rw [not_le] at hpos
  have h1 : (st.bucket.take true).1 = true := by
    rw [Bucket.take_peek_fst]; exact decide_eq_true hpos
  unfold Counter.should_block at h
  split at h
  · simp at h
  · cases hp : cfg.per_seconds with
    | none => rw [hp] at h; simp at h
    | some p =>
      rw [hp] at h
      simp only [h1, if_true] at h
      simp at h

lemma Counter.should_block_of_pos (st : ActorState) (t : ℚ) (cfg : Configuration)
    (hpos : 0 < st.bucket.tokens) (hact : st.bucket.active = true) :
    Counter.should_block st t cfg = (false, st) := by
  obtain ⟨l, b⟩ := st
  obtain ⟨m, tk, a⟩ := b
  simp only [Bucket.active] at hact
  subst hact
  unfold Counter.should_block
  split
  · rfl
  · cases hp : cfg.per_seconds with
    | none => rfl
    | some p =>
      have h1 : ((Bucket.mk m tk true).take true).1 = true := by
        rw [Bucket.take_peek_fst]; exact decide_eq_true hpos
      simp only [h1, if_true]
      rw [Bucket.take_peek_bucket]

lemma Counter.should_block_throttle (st : ActorState) (t : ℚ) (cfg : Configuration)
    (h : cfg.behavior ≠ Behavior.Blocking) :
    Counter.should_block st t cfg = (false, st) := by
  unfold Counter.should_block
  simp [h]

lemma Counter.admission_last (st : ActorState) (cfg : Configuration) (time r : ℚ) :
    (Counter.admission st cfg time r).last = st.last := by
  simp only [Counter.admission]
  split
  · rw [Counter.should_block_last]
  · rw [Counter.should_block_last]

/-- Decomposition of `Counter.fetch` on the quota-configured path: the
verdict is exactly the result of the final non-peeking `take` on the
post-admission bucket, `last` advances to the request time only on
success, and the taken bucket is what gets persisted. -/
lemma Counter.fetch_decomp (st : ActorState) (cfg : Configuration) (time r : ℚ)
    (hr : cfg.requests = some r) :
    Counter.fetch st cfg time =
      (((Counter.admission st cfg time r).bucket.take false).1,
       ⟨if ((Counter.admission st cfg time r).bucket.take false).1 then time else st.last,
        ((Counter.admission st cfg time r).bucket.take false).2⟩) := by
  simp only [Counter.fetch]
  rw [hr]
  by_cases htk : ((Counter.admission st cfg time r).bucket.take false).1 = true
  · simp [Counter.respond, htk]
  · rw [Bool.not_eq_true] at htk
    simp [Counter.respond, htk, Counter.admission_last]

/-! ### Scenario lemmas: same-timestamp draining, blocking, refill -/

/-- One request at the same timestamp as `last` against an active bucket
holding `1 ≤ k ≤ r` tokens (capacity already `r`): allowed, one token
consumed, regardless of behavior and window. -/
lemma Counter.fetch_same_time (cfg : Configuration) (r : ℚ) (hr : cfg.requests = some r)
    (t k : ℚ) (hk1 : 1 ≤ k) (hkr : k ≤ r) :
    Counter.fetch ⟨t, ⟨r, k, true⟩⟩ cfg t = (true, ⟨t, ⟨r, k - 1, true⟩⟩) := by
  have hpos : (0 : ℚ) < k := lt_of_lt_of_le one_pos hk1
  have hadm : Counter.admission ⟨t, ⟨r, k, true⟩⟩ cfg t r = ⟨t, ⟨r, k, true⟩⟩ := by
    simp only [Counter.admission, Bucket.set_size]
    have hsb : Counter.should_block ⟨t, ⟨r, k, true⟩⟩ t cfg = (false, ⟨t, ⟨r, k, true⟩⟩) :=
      Counter.should_block_of_pos _ _ _ hpos rfl
    rw [hsb]
    simp only [Bool.false_eq_true, if_false]
    have hfc : Counter.fillChoice ⟨t, ⟨r, k, true⟩⟩ cfg t r = 0 := by
      simp [Counter.fillChoice, Bucket.set_size, Bucket.is_active,
        Counter.fill_amount_same_time]
    rw [hfc]
    simp [Bucket.fill, min_eq_right (sub_nonneg.mpr hkr)]
  rw [Counter.fetch_decomp _ _ _ r hr, hadm]
  have htake : (Bucket.take ⟨r, k, true⟩ false) = (true, ⟨r, k - 1, true⟩) :=
    Bucket.take_true_of_pos _ hpos
  simp [htake]

/-- Draining `n ≤ k` tokens with `n` same-timestamp requests: all
allowed. -/
lemma Counter.run_drain (cfg : Configuration) (r : ℚ) (hr : cfg.requests = some r)
    (t : ℚ) :
    ∀ (n : ℕ) (k : ℚ), (n : ℚ) ≤ k → k ≤ r →
    Counter.run ⟨t, ⟨r, k, true⟩⟩ (List.replicate n (cfg, t)) =
      (List.replicate n true, ⟨t, ⟨r, k - n, true⟩⟩) := by
  intro n
  induction n with
  | zero => intro k _ _; simp [Counter.run]
  | succ m ih =>
    intro k hk hkr
    have hm : (0 : ℚ) ≤ (m : ℚ) := by positivity
    have hk1 : 1 ≤ k := by push_cast at hk; linarith
    rw [List.replicate_succ]
    simp only [Counter.run]
    rw [Counter.fetch_same_time cfg r hr t k hk1 hkr]
    have ih2 := ih (k - 1) (by push_cast at hk ⊢; linarith) (by linarith)
    rw [ih2]
    have : k - 1 - (m : ℚ) = k - ((m + 1 : ℕ) : ℚ) := by push_cast; ring
    rw [this]
    simp [List.replicate_succ]

/-- Splitting a request list. -/
lemma Counter.run_append (st : ActorState) (l1 l2 : List (Configuration × ℚ)) :
    Counter.run st (l1 ++ l2) =
      ((Counter.run st l1).1 ++ (Counter.run (Counter.run st l1).2 l2).1,
       (Counter.run (Counter.run st l1).2 l2).2) := by
  induction l1 generalizing st with
  | nil => simp [Counter.run]
  | cons q rest ih =>
    simp only [List.cons_append, Counter.run]
    rw [show rest.append l2 = rest ++ l2 from rfl, ih]

/-- The very first request on a fresh state under
`Configuration(10, 10, Blocking)` at time `t ≥ 10000` is allowed: a
full window has elapsed since `last = 0`, so `should_block` is false,
the fresh bucket is granted its full capacity, and one token is
consumed. -/
lemma Counter.fetch_first_blocking (t : ℚ) (ht : 10000 ≤ t) :
    Counter.fetch ActorState.init ⟨some 10, some 10, 0⟩ t =
      (true, ⟨t, ⟨10, 9, true⟩⟩) := by
  have hdec : ¬ (((⌊t / 1000⌋ : ℤ) : ℚ) < 10) := by
    rw [not_lt]
    have h1 : (10 : ℤ) ≤ ⌊t / 1000⌋ := by
      apply Int.le_floor.mpr
      rw [le_div_iff₀ (by norm_num : (0:ℚ) < 1000)]
      push_cast
      linarith
    exact_mod_cast h1
  norm_num [Counter.fetch, Counter.admission, Counter.should_block, Counter.fillChoice,
    Counter.fill_amount, Counter.respond, Bucket.take, Bucket.fill, Bucket.set_size,
    Bucket.is_active, Behavior.Blocking, ActorState.init, Bucket.new, sub_zero, hdec]

/-- Under `Configuration(10, 10, Blocking)`, a drained active bucket at
the same timestamp as the last success is blocked: no refill, denied,
state unchanged. -/
lemma Counter.fetch_blocked_deny (t : ℚ) :
    Counter.fetch ⟨t, ⟨10, 0, true⟩⟩ ⟨some 10, some 10, 0⟩ t =
      (false, ⟨t, ⟨10, 0, true⟩⟩) := by
  norm_num [Counter.fetch, Counter.admission, Counter.should_block, Counter.fillChoice,
    Counter.fill_amount, Counter.respond, Bucket.take, Bucket.fill, Bucket.set_size,
    Bucket.is_active, Behavior.Blocking, sub_self]

/-- The very first request on a fresh state under
`Configuration(20, 10, Throttling)` is allowed at any time: throttling
never pre-blocks, the fresh bucket gets its full 20 tokens, one is
consumed. -/
lemma Counter.fetch_first_throttle (t : ℚ) :
    Counter.fetch ActorState.init ⟨some 20, some 10, 1⟩ t =
      (true, ⟨t, ⟨20, 19, true⟩⟩) := by
  norm_num [Counter.fetch, Counter.admission, Counter.should_block, Counter.fillChoice,
    Counter.fill_amount, Counter.respond, Bucket.take, Bucket.fill, Bucket.set_size,
    Bucket.is_active, Behavior.Blocking, ActorState.init, Bucket.new]

/-- Under `Configuration(20, 10, Throttling)`, a drained bucket whose
last success was exactly 1000 ms ago refills by
`floor(20/10 * 1) = 2` tokens and the request is allowed. -/
lemma Counter.fetch_refill_two (t : ℚ) :
    Counter.fetch ⟨t, ⟨20, 0, true⟩⟩ ⟨some 20, some 10, 1⟩ (t + 1000) =
      (true, ⟨t + 1000, ⟨20, 1, true⟩⟩) := by
  have h1 : (t + 1000 - t) / 1000 = 1 := by ring_nf
  norm_num [Counter.fetch, Counter.admission, Counter.should_block, Counter.fillChoice,
    Counter.fill_amount, Counter.respond, Bucket.take, Bucket.fill, Bucket.set_size,
    Bucket.is_active, Behavior.Blocking, h1]

/-- Under `Configuration(20, 10, Throttling)`, a drained bucket at the
same timestamp as the last success gets no refill and the request is
denied. -/
lemma Counter.fetch_throttle_deny (t : ℚ) :
    Counter.fetch ⟨t, ⟨20, 0, true⟩⟩ ⟨some 20, some 10, 1⟩ t =
      (false, ⟨t, ⟨20, 0, true⟩⟩) := by
  norm_num [Counter.fetch, Counter.admission, Counter.should_block, Counter.fillChoice,
    Counter.fill_amount, Counter.respond, Bucket.take, Bucket.fill, Bucket.set_size,
    Bucket.is_active, Behavior.Blocking, sub_self]

/-! ### Invariant machinery for the capacity bound -/

/-- A well-formed configuration: `requests` and `per_seconds` each null
or a positive integer (the values the spec's data model intends; the
permissive coercion also lets other numbers through — see the
capacity-bound counterexample). -/
def GoodCfg (c : Configuration) : Prop :=
  (c.requests = none ∨ ∃ n : ℤ, 0 < n ∧ c.requests = some (n : ℚ)) ∧
  (c.per_seconds = none ∨ ∃ n : ℤ, 0 < n ∧ c.per_seconds = some (n : ℚ))

/-- The state invariant: the bucket holds an integral number of tokens
between `0` and `max` (itself integral), and `last` is non-negative. -/
def StateInv (st : ActorState) : Prop :=
  0 ≤ st.bucket.tokens ∧ st.bucket.tokens ≤ st.bucket.max ∧
  (∃ k : ℤ, st.bucket.tokens = (k : ℚ)) ∧ (∃ m : ℤ, st.bucket.max = (m : ℚ)) ∧
  0 ≤ st.last

lemma Counter.admission_bucket (st : ActorState) (c : Configuration) (t r : ℚ) :
    (Counter.admission st c t r).bucket.max = r ∧
    (((Counter.admission st c t r).bucket.tokens = st.bucket.tokens ∧
        st.bucket.tokens ≤ 0) ∨
      (Counter.admission st c t r).bucket.tokens =
        st.bucket.tokens + min (r - st.bucket.tokens) (Counter.fillChoice st c t r)) := by
  simp only [Counter.admission]
  split
  · next hsb =>
    refine ⟨?_, Or.inl ⟨?_, ?_⟩⟩
    · rw [Counter.should_block_max]
      simp [Bucket.set_size]
    · rw [Counter.should_block_tokens]
      simp [Bucket.set_size]
    · have h1 := Counter.should_block_true_imp ⟨st.last, st.bucket.set_size r⟩ t c hsb
      simpa [Bucket.set_size] using h1
  · next hsb =>
    refine ⟨?_, Or.inr ?_⟩
    · simp only [Bucket.fill]
      rw [Counter.should_block_max]
      simp [Bucket.set_size]
    · simp only [Bucket.fill]
      rw [Counter.should_block_tokens, Counter.should_block_max]
      simp [Bucket.set_size]

lemma Counter.fillChoice_nonneg (st : ActorState) (c : Configuration) (t r : ℚ)
    (hr : 0 ≤ r) (hlt : st.last ≤ t)
    (hper : c.per_seconds = none ∨ ∃ n : ℤ, 0 < n ∧ c.per_seconds = some (n : ℚ)) :
    0 ≤ Counter.fillChoice st c t r := by
  unfold Counter.fillChoice
  split
  · exact hr
  · rcases hper with hnone | ⟨n, hn, hsome⟩
    · rw [hnone]; exact le_rfl
    · rw [hsome]
      exact Counter.fill_amount_nonneg r _ t st.last hr (by positivity) hlt

lemma Counter.fillChoice_int (st : ActorState) (c : Configuration) (t r : ℚ)
    (hrZ : ∃ j : ℤ, r = (j : ℚ)) :
    ∃ j : ℤ, Counter.fillChoice st c t r = (j : ℚ) := by
  unfold Counter.fillChoice
  split
  · exact hrZ
  · exact Counter.fill_amount_int r c.per_seconds t st.last

/-- One processed request preserves the invariant, and the persisted
`last` never exceeds the request time. -/
lemma Counter.fetch_inv (st : ActorState) (c : Configuration) (t : ℚ)
    (hInv : StateInv st) (hlt : st.last ≤ t) (hc : GoodCfg c) :
    StateInv (Counter.fetch st c t).2 ∧ (Counter.fetch st c t).2.last ≤ t := by
  obtain ⟨htok0, htokmax, ⟨k, hk⟩, ⟨m, hm⟩, hlast0⟩ := hInv
  obtain ⟨hreq, hper⟩ := hc
  have ht0 : (0 : ℚ) ≤ t := le_trans hlast0 hlt
  rcases hreq with hnone | ⟨n, hn, hsome⟩
  · simp only [Counter.fetch]
    rw [hnone]
    simp only [Counter.respond, if_pos]
    exact ⟨⟨htok0, htokmax, ⟨k, hk⟩, ⟨m, hm⟩, ht0⟩, le_rfl⟩
  · have hnq : (0 : ℚ) < (n : ℚ) := by exact_mod_cast hn
    obtain ⟨hAmax, hAtok⟩ := Counter.admission_bucket st c t (n : ℚ)
    have hAlast : (Counter.admission st c t (n : ℚ)).last = st.last :=
      Counter.admission_last st c t (n : ℚ)
    have hfa0 : 0 ≤ Counter.fillChoice st c t (n : ℚ) :=
      Counter.fillChoice_nonneg st c t _ hnq.le hlt hper
    obtain ⟨j, hj⟩ := Counter.fillChoice_int st c t (n : ℚ) ⟨n, rfl⟩
    rw [Counter.fetch_decomp st c t _ hsome]
    rcases hAtok with ⟨hAt, hA0⟩ | hAt
    · -- blocked (or simply empty-after-admission with skipped fill)
      have htake := Bucket.take_false_of_nonpos (Counter.admission st c t (n : ℚ)).bucket
        (by rw [hAt]; exact hA0)
      rw [htake]
      simp only [Bool.false_eq_true, if_false]
      refine ⟨⟨?_, ?_, ⟨k, ?_⟩, ⟨n, ?_⟩, hlast0⟩, hlt⟩
      · simpa [hAt] using htok0
      · simp only [hAt, hAmax]
        exact le_trans hA0 hnq.le
      · simpa [hAt] using hk
      · simp [hAmax]
    · -- fill applied: tokens become st.tokens + min (n - st.tokens) fa
      have hTle : (Counter.admission st c t (n : ℚ)).bucket.tokens ≤ (n : ℚ) := by
        rw [hAt]
        have := min_le_left ((n : ℚ) - st.bucket.tokens) (Counter.fillChoice st c t (n : ℚ))
        linarith
      have hT0 : 0 ≤ (Counter.admission st c t (n : ℚ)).bucket.tokens := by
        rw [hAt]
        rcases min_cases ((n : ℚ) - st.bucket.tokens) (Counter.fillChoice st c t (n : ℚ))
          with ⟨hmin, _⟩ | ⟨hmin, _⟩ <;> rw [hmin] <;> linarith
      have hTZ : ∃ K : ℤ, (Counter.admission st c t (n : ℚ)).bucket.tokens = (K : ℚ) := by
        refine ⟨k + min (n - k) j, ?_⟩
        rw [hAt, hk, hj]
        push_cast
        rfl
      obtain ⟨K, hK⟩ := hTZ
      by_cases hTpos : (Counter.admission st c t (n : ℚ)).bucket.tokens ≤ 0
      · have htake := Bucket.take_false_of_nonpos _ hTpos
        rw [htake]
        simp only [Bool.false_eq_true, if_false]
        exact ⟨⟨hT0, by rw [hAmax]; exact le_trans hTpos hnq.le, ⟨K, hK⟩, ⟨n, by rw [hAmax]⟩,
          hlast0⟩, hlt⟩
      · rw [not_le] at hTpos
        have htake := Bucket.take_true_of_pos _ hTpos
        rw [htake]
        simp only [if_pos]
        have hK1 : (1 : ℚ) ≤ (K : ℚ) := by
          have : (0 : ℤ) < K := by exact_mod_cast hK ▸ hTpos
          exact_mod_cast this
        refine ⟨⟨?_, ?_, ⟨K - 1, ?_⟩, ⟨n, by rw [hAmax]⟩, ht0⟩, le_rfl⟩
        · rw [hK]
          show (0 : ℚ) ≤ (K : ℚ) - 1
          linarith
        · rw [hAmax]
          show (Counter.admission st c t (n : ℚ)).bucket.tokens - 1 ≤ ((n : ℤ) : ℚ)
          linarith
        · rw [hK]
          show (K : ℚ) - 1 = ((K - 1 : ℤ) : ℚ)
          push_cast
          ring

/-- The invariant is preserved along any request sequence whose
timestamps continue non-decreasingly from the state's `last`. -/
lemma Counter.run_inv (reqs : List (Configuration × ℚ)) :
    ∀ st : ActorState, StateInv st →
    List.Chain (· ≤ ·) st.last (reqs.map Prod.snd) →
    (∀ x ∈ reqs, GoodCfg x.1) →
    StateInv (Counter.runList st reqs) := by
  induction reqs with
  | nil => intro st h _ _; exact h
  | cons q rest ih =>
    intro st hInv hchain hgood
    rw [List.map_cons, List.chain_cons] at hchain
    obtain ⟨hle, hchain2⟩ := hchain
    have hstep := Counter.fetch_inv st q.1 q.2 hInv hle (hgood q (List.mem_cons_self q rest))
    have hchain3 : List.Chain (· ≤ ·) (Counter.fetch st q.1 q.2).2.last
        (rest.map Prod.snd) := by
      cases h2 : rest.map Prod.snd with
      | nil => exact List.Chain.nil
      | cons a l =>
        rw [h2, List.chain_cons] at hchain2
        exact List.chain_cons.mpr ⟨le_trans hstep.2 hchain2.1, hchain2.2⟩
    have := ih (Counter.fetch st q.1 q.2).2 hstep.1 hchain3
      (fun x hx => hgood x (List.mem_cons_of_mem _ hx))
    simpa [Counter.runList, Counter.run] using this

/-! ### Claim theorems -/

/-- Claim C3: `should_block(time, configuration)` returns true if and
only if the behavior is Blocking, `per_seconds` is non-null, a
non-consuming peek of the bucket finds no token, and
`floor((time - last) / 1000) < per_seconds`; in all other cases it
returns false. -/
theorem claim3_should_block_iff (st : ActorState) (t : ℚ) (cfg : Configuration) :
    (Counter.should_block st t cfg).1 = true ↔
      (cfg.behavior = Behavior.Blocking ∧
       ∃ p, cfg.per_seconds = some p ∧ (st.bucket.take true).1 = false ∧
         ((⌊(t - st.last) / 1000⌋ : ℤ) : ℚ) < p) := by
  unfold Counter.should_block
  by_cases hb : cfg.behavior = Behavior.Blocking
  · simp only [hb, ne_eq, not_true_eq_false, if_false]
    cases hp : cfg.per_seconds with
    | none => simp
    | some p =>
      by_cases htk : (st.bucket.take true).1 = true
      · simp [htk]
      · rw [Bool.not_eq_true] at htk
        simp [htk]
  · simp [hb]

/-- Claim C4: configuration normalization maps a literal `0` (and any
input whose numeric coercion is `NaN`) to `null` — the unlimited
setting — for `requests` and likewise for `per_seconds`. -/
theorem claim4_zero_coerces_to_null (raw other : Raw) (b : Int)
    (h : toNumber raw = JSNum.num 0 ∨ toNumber raw = JSNum.nan) :
    (Configuration.make raw other b).requests = none ∧
    (Configuration.make other raw b).per_seconds = none := by
  constructor <;>
    rcases h with h | h <;>
      simp [Configuration.make, normalizeValue, jsNormalize, h, JSNum.falsy]

/-- Witness for C4 at the literal input `0`. -/
theorem claim4_witness :
    (toNumber (Raw.jsnum (JSNum.num 0)) = JSNum.num 0 ∨
      toNumber (Raw.jsnum (JSNum.num 0)) = JSNum.nan) ∧
    ((Configuration.make (Raw.jsnum (JSNum.num 0)) (Raw.strOfNum 7) 0).requests = none ∧
     (Configuration.make (Raw.strOfNum 7) (Raw.jsnum (JSNum.num 0)) 0).per_seconds = none) :=
  ⟨Or.inl rfl, claim4_zero_coerces_to_null _ _ _ (Or.inl rfl)⟩

/-- Claim C5: with `requests = null` the request is immediately allowed,
`last` is set to the request time, the state is persisted, and the
bucket is passed through untouched (and unread: the result does not
depend on it). -/
theorem claim5_unlimited_pass (st : ActorState) (cfg : Configuration) (t : ℚ)
    (h : cfg.requests = none) :
    Counter.fetch st cfg t = (true, ⟨t, st.bucket⟩) := by
  simp only [Counter.fetch]
  rw [h]
  simp [Counter.respond]

/-- Witness for C5 on a non-trivial prior state. -/
theorem claim5_witness :
    Counter.fetch ⟨5, ⟨3, 2, true⟩⟩ ⟨none, some 10, 0⟩ 77 =
      (true, ⟨77, ⟨3, 2, true⟩⟩) :=
  claim5_unlimited_pass ⟨5, ⟨3, 2, true⟩⟩ ⟨none, some 10, 0⟩ 77 rfl

/-- Claim C7 (amended): every normalized field is `null` or a nonzero
number — never `NaN`, never a string — but it need NOT be non-negative
(see the counterexample). -/
theorem claim7_fields_null_or_nonzero (r : Raw) :
    (jsNormalize r = none ∧ (Configuration.make r r 0).requests = none ∧
      (Configuration.make r r 0).per_seconds = none) ∨
    (∃ q : ℚ, q ≠ 0 ∧ jsNormalize r = some (JSNum.num q) ∧
      (Configuration.make r r 0).requests = some q ∧
      (Configuration.make r r 0).per_seconds = some q) := by
  rcases hr : toNumber r with _ | q
  · left
    simp [jsNormalize, hr, JSNum.falsy, Configuration.make, normalizeValue]
  · by_cases hq : q = 0
    · left
      simp [jsNormalize, hr, JSNum.falsy, hq, Configuration.make, normalizeValue]
    · right
      exact ⟨q, hq,
        by simp [jsNormalize, hr, JSNum.falsy, hq],
        by simp [Configuration.make, normalizeValue, jsNormalize, hr, JSNum.falsy, hq,
          JSNum.toQ],
        by simp [Configuration.make, normalizeValue, jsNormalize, hr, JSNum.falsy, hq,
          JSNum.toQ]⟩

/-- Counterexample to C7 as stated: the input string `"-5"` normalizes
to the negative number `-5`, not to `null` and not to a non-negative
number. -/
theorem claim7_counterexample :
    (Configuration.make (Raw.strOfNum (-5)) Raw.null 0).requests = some (-5) ∧
    ((-5 : ℚ) < 0) := by
  constructor
  · simp [Configuration.make, normalizeValue, jsNormalize, toNumber, JSNum.falsy, JSNum.toQ]
  · norm_num

/-- Claim C8: on the quota-configured path the verdict is exactly the
result of the non-peeking `take` on the post-admission bucket; on
success `last` becomes the request time, on failure it keeps its prior
value; the taken bucket is persisted either way. -/
theorem claim8_take_decides_verdict (st : ActorState) (cfg : Configuration) (t r : ℚ)
    (hr : cfg.requests = some r) :
    (Counter.fetch st cfg t).1 = ((Counter.admission st cfg t r).bucket.take false).1 ∧
    (Counter.fetch st cfg t).2.bucket = ((Counter.admission st cfg t r).bucket.take false).2 ∧
    ((Counter.fetch st cfg t).1 = true → (Counter.fetch st cfg t).2.last = t) ∧
    ((Counter.fetch st cfg t).1 = false → (Counter.fetch st cfg t).2.last = st.last) := by
  rw [Counter.fetch_decomp st cfg t r hr]
  refine ⟨rfl, rfl, ?_, ?_⟩
  · intro h
    simp only at h
    simp [h]
  · intro h
    simp only at h
    simp [h]

/-- Witness for C8 on a concrete state and configuration. -/
theorem claim8_witness :
    (Counter.fetch ⟨9, ⟨5, 2, true⟩⟩ ⟨some 5, none, 1⟩ 123).1 =
      ((Counter.admission ⟨9, ⟨5, 2, true⟩⟩ ⟨some 5, none, 1⟩ 123 5).bucket.take false).1 ∧
    (Counter.fetch ⟨9, ⟨5, 2, true⟩⟩ ⟨some 5, none, 1⟩ 123).2.bucket =
      ((Counter.admission ⟨9, ⟨5, 2, true⟩⟩ ⟨some 5, none, 1⟩ 123 5).bucket.take false).2 ∧
    ((Counter.fetch ⟨9, ⟨5, 2, true⟩⟩ ⟨some 5, none, 1⟩ 123).1 = true →
      (Counter.fetch ⟨9, ⟨5, 2, true⟩⟩ ⟨some 5, none, 1⟩ 123).2.last = 123) ∧
    ((Counter.fetch ⟨9, ⟨5, 2, true⟩⟩ ⟨some 5, none, 1⟩ 123).1 = false →
      (Counter.fetch ⟨9, ⟨5, 2, true⟩⟩ ⟨some 5, none, 1⟩ 123).2.last = 9) :=
  claim8_take_decides_verdict ⟨9, ⟨5, 2, true⟩⟩ ⟨some 5, none, 1⟩ 123 5 rfl

/-- Claim C9: `behavior` is never validated — the constructor stores it
as-is, and any value other than the Blocking enum value `0` makes
`should_block` return false, so such a request is processed under
Throttling semantics. -/
theorem claim9_behavior_unvalidated (cfg : Configuration) (st : ActorState) (t : ℚ)
    (rq ps : Raw) (h : cfg.behavior ≠ Behavior.Blocking) :
    Counter.should_block st t cfg = (false, st) ∧
    Counter.fetch st cfg t =
      Counter.fetch st ⟨cfg.requests, cfg.per_seconds, Behavior.Throttling⟩ t ∧
    (Configuration.make rq ps cfg.behavior).behavior = cfg.behavior := by
  refine ⟨Counter.should_block_throttle st t cfg h, ?_, rfl⟩
  obtain ⟨rq0, ps0, b0⟩ := cfg
  simp only [Counter.fetch]
  cases rq0 with
  | none => rfl
  | some r =>
    have h1 : Counter.should_block ⟨st.last, st.bucket.set_size r⟩ t ⟨some r, ps0, b0⟩ =
        (false, ⟨st.last, st.bucket.set_size r⟩) :=
      Counter.should_block_throttle _ _ _ h
    have h2 : Counter.should_block ⟨st.last, st.bucket.set_size r⟩ t
        ⟨some r, ps0, Behavior.Throttling⟩ = (false, ⟨st.last, st.bucket.set_size r⟩) :=
      Counter.should_block_throttle _ _ _ (by norm_num [Behavior.Throttling, Behavior.Blocking])
    simp only [Counter.admission, Counter.fillChoice, h1, h2]

/-- Witness for C9 at the out-of-enumeration behavior value `5`. -/
theorem claim9_witness :
    Counter.should_block ⟨0, ⟨10, 3, true⟩⟩ 7 ⟨some 10, some 10, 5⟩ =
      (false, ⟨0, ⟨10, 3, true⟩⟩) ∧
    Counter.fetch ⟨0, ⟨10, 3, true⟩⟩ ⟨some 10, some 10, 5⟩ 7 =
      Counter.fetch ⟨0, ⟨10, 3, true⟩⟩ ⟨some 10, some 10, Behavior.Throttling⟩ 7 ∧
    (Configuration.make Raw.null Raw.strBad (5 : Int)).behavior = (5 : Int) :=
  claim9_behavior_unvalidated ⟨some 10, some 10, 5⟩ ⟨0, ⟨10, 3, true⟩⟩ 7 Raw.null
    Raw.strBad (by decide)

/-- Claim C10 (amended): with positive `requests` and `per_seconds`, if
the request time lies at least one whole second before the stored
`last`, `fill_amount` is negative, and `fill` applied to a negative
amount silently strictly decreases the token count — no error, no
no-op. -/
theorem claim10_negative_fill (r p time last : ℚ) (hr : 0 < r) (hp : 0 < p)
    (h : time ≤ last - 1000) :
    Counter.fill_amount r (some p) time last < 0 ∧
    ∀ b : Bucket, (b.fill (Counter.fill_amount r (some p) time last)).tokens < b.tokens := by
  have hfa : Counter.fill_amount r (some p) time last < 0 := by
    rw [Counter.fill_amount_some]
    have h1 : (time - last) / 1000 ≤ ((-1 : ℤ) : ℚ) := by
      rw [div_le_iff₀ (by norm_num : (0:ℚ) < 1000)]
      push_cast
      linarith
    have h2 : ⌊(time - last) / 1000⌋ ≤ -1 := by
      have := Int.floor_le_floor h1
      rwa [Int.floor_intCast] at this
    have h3 : r / p * ((⌊(time - last) / 1000⌋ : ℤ) : ℚ) < 0 := by
      apply mul_neg_of_pos_of_neg (div_pos hr hp)
      have hc : ((⌊(time - last) / 1000⌋ : ℤ) : ℚ) ≤ -1 := by exact_mod_cast h2
      linarith
    have h4 : ⌊r / p * ((⌊(time - last) / 1000⌋ : ℤ) : ℚ)⌋ < 0 := by
      apply Int.floor_lt.mpr
      exact_mod_cast h3
    exact_mod_cast h4
  refine ⟨hfa, fun b => ?_⟩
  simp only [Bucket.fill]
  have hmin := min_le_right (b.max - b.tokens) (Counter.fill_amount r (some p) time last)
  linarith

/-- Witness for C10: requests 10 per 10 seconds, request at time 0
against `last = 1000`. -/
theorem claim10_witness :
    Counter.fill_amount 10 (some 10) 0 1000 < 0 ∧
    ((Bucket.mk 10 5 true).fill (Counter.fill_amount 10 (some 10) 0 1000)).tokens <
      (Bucket.mk 10 5 true).tokens :=
  ⟨(claim10_negative_fill 10 10 0 1000 (by norm_num) (by norm_num) (by norm_num)).1,
   (claim10_negative_fill 10 10 0 1000 (by norm_num) (by norm_num) (by norm_num)).2
     (Bucket.mk 10 5 true)⟩

/-- Counterexample to C10 as stated: normalization also admits negative
`requests` (input string `"-10"`), and then a request one second before
`last` makes `fill_amount` positive, not negative. -/
theorem claim10_counterexample :
    (Configuration.make (Raw.strOfNum (-10)) (Raw.strOfNum 10) 1).requests = some (-10) ∧
    (Configuration.make (Raw.strOfNum (-10)) (Raw.strOfNum 10) 1).per_seconds = some 10 ∧
    0 ≤ Counter.fill_amount (-10) (some 10) 0 1000 := by
  refine ⟨?_, ?_, ?_⟩
  · simp [Configuration.make, normalizeValue, jsNormalize, toNumber, JSNum.falsy, JSNum.toQ]
  · simp [Configuration.make, normalizeValue, jsNormalize, toNumber, JSNum.falsy, JSNum.toQ]
  · rw [Counter.fill_amount_some]
    have e1 : ((0 : ℚ) - 1000) / 1000 = ((-1 : ℤ) : ℚ) := by norm_num
    rw [e1, Int.floor_intCast]
    have e2 : (-10 : ℚ) / 10 * ((-1 : ℤ) : ℚ) = ((1 : ℤ) : ℚ) := by push_cast; norm_num
    rw [e2, Int.floor_intCast]
    norm_num

lemma Counter.run_cons (st : ActorState) (q : Configuration × ℚ)
    (l : List (Configuration × ℚ)) (v : Bool) (st' : ActorState)
    (h : Counter.fetch st q.1 q.2 = (v, st')) :
    Counter.run st (q :: l) = (v :: (Counter.run st' l).1, (Counter.run st' l).2) := by
  simp only [Counter.run, h]

/-- Claim C1 (amended): `Configuration(10, 10, Blocking)`, 11 requests
at one shared timestamp `t` from the initial state: provided a full
window has already elapsed since the initial `last = 0` (`t ≥ 10000`
ms), the first 10 are allowed and the 11th is denied.  (Without that
proviso the claim fails — see the counterexample.) -/
theorem claim1_hard_blocking (t : ℚ) (ht : 10000 ≤ t) :
    (Counter.run ActorState.init
      (List.replicate 11 ((⟨some 10, some 10, 0⟩ : Configuration), t))).1 =
      List.replicate 10 true ++ [false] := by
  rw [show (11 : ℕ) = 1 + (9 + 1) from rfl, List.replicate_add, List.replicate_add,
    List.replicate_one, List.singleton_append]
  rw [Counter.run_cons _ _ _ _ _ (Counter.fetch_first_blocking t ht)]
  rw [Counter.run_append]
  have e2 := Counter.run_drain ⟨some 10, some 10, 0⟩ 10 rfl t 9 9 (by norm_num) (by norm_num)
  norm_num at e2
  rw [e2]
  rw [Counter.run_cons _ _ _ _ _ (Counter.fetch_blocked_deny t)]
  simp only [Counter.run]
  rw [show (10 : ℕ) = 1 + 9 from rfl, List.replicate_add, List.replicate_one,
    List.singleton_append]
  simp

/-- Counterexample to C1 as stated: at timestamp `t = 0` (allowed by
the claim's "at the same current timestamp", with the initial
`last = 0`), `should_block` holds from the very first request — all 11
requests are denied, not 10 allowed then 1 denied. -/
theorem claim1_counterexample :
    (Counter.run ActorState.init
      (List.replicate 11 ((⟨some 10, some 10, 0⟩ : Configuration), (0 : ℚ)))).1 ≠
      List.replicate 10 true ++ [false] := by
  norm_num [Counter.run, Counter.fetch, Counter.admission, Counter.should_block,
    Counter.fillChoice, Counter.fill_amount, Counter.respond, ActorState.init, Bucket.new,
    Bucket.set_size, Bucket.is_active, Bucket.take, Bucket.fill, Behavior.Blocking,
    List.replicate]

/-- Witness for C1 at the boundary timestamp `t = 10000`. -/
theorem claim1_witness :
    ((10000 : ℚ) ≤ 10000) ∧
    (Counter.run ActorState.init
      (List.replicate 11 ((⟨some 10, some 10, 0⟩ : Configuration), (10000 : ℚ)))).1 =
      List.replicate 10 true ++ [false] :=
  ⟨le_rfl, claim1_hard_blocking 10000 le_rfl⟩

/-- Claim C2: `Configuration(20, 10, Throttling)`; 20 requests at time
`t` exhaust the bucket; after exactly one elapsed second
(`t + 1000`, no admitted request in between) exactly 2 further requests
are allowed (refill rate 20/10 = 2 tokens/second) and the next is
denied. -/
theorem claim2_graduated_throttling (t : ℚ) :
    (Counter.run ActorState.init
      (List.replicate 20 ((⟨some 20, some 10, 1⟩ : Configuration), t) ++
       List.replicate 3 ((⟨some 20, some 10, 1⟩ : Configuration), t + 1000))).1 =
      List.replicate 22 true ++ [false] := by
  rw [show (20 : ℕ) = 1 + 19 from rfl, List.replicate_add, List.replicate_one,
    List.singleton_append, List.cons_append]
  rw [Counter.run_cons _ _ _ _ _ (Counter.fetch_first_throttle t)]
  rw [Counter.run_append]
  have e2 := Counter.run_drain ⟨some 20, some 10, 1⟩ 20 rfl t 19 19 (by norm_num) (by norm_num)
  norm_num at e2
  rw [e2]
  rw [show List.replicate 3 ((⟨some 20, some 10, 1⟩ : Configuration), t + 1000) =
    [(⟨some 20, some 10, 1⟩, t + 1000), (⟨some 20, some 10, 1⟩, t + 1000),
     (⟨some 20, some 10, 1⟩, t + 1000)] from rfl]
  rw [Counter.run_cons _ _ _ _ _ (Counter.fetch_refill_two t)]
  have e3 := Counter.fetch_same_time ⟨some 20, some 10, 1⟩ 20 rfl (t + 1000) 1 le_rfl
    (by norm_num)
  norm_num at e3
  rw [Counter.run_cons _ _ _ _ _ e3]
  rw [Counter.run_cons _ _ _ _ _ (Counter.fetch_throttle_deny (t + 1000))]
  simp only [Counter.run]
  rw [show (22 : ℕ) = 1 + (19 + 2) from rfl, List.replicate_add, List.replicate_add,
    List.replicate_one, List.singleton_append]
  simp [List.replicate]

/-- Claim C6 (amended): starting from the initial state, any sequence
of requests whose configurations carry `requests` and `per_seconds`
that are each null or a positive integer, with non-negative,
non-decreasing timestamps, leaves the bucket with
`0 ≤ tokens ≤ max`.  (For the unrestricted claim — arbitrary coerced
configurations — see the counterexample.) -/
theorem claim6_capacity_bound (reqs : List (Configuration × ℚ))
    (hgood : ∀ x ∈ reqs, GoodCfg x.1)
    (hchain : List.Chain (· ≤ ·) 0 (reqs.map Prod.snd)) :
    0 ≤ (Counter.runList ActorState.init reqs).bucket.tokens ∧
      (Counter.runList ActorState.init reqs).bucket.tokens ≤
        (Counter.runList ActorState.init reqs).bucket.max := by
  have h := Counter.run_inv reqs ActorState.init
    ⟨le_rfl, le_rfl, ⟨0, by simp [ActorState.init, Bucket.new]⟩,
      ⟨0, by simp [ActorState.init, Bucket.new]⟩, le_rfl⟩ hchain hgood
  exact ⟨h.1, h.2.1⟩

/-- Counterexample to C6 as stated: normalization admits the fractional
quota `0.5` (header string `"0.5"`); one request drives the bucket to
`-0.5` tokens — below zero. -/
theorem claim6_counterexample :
    (Counter.runList ActorState.init
      [(Configuration.make (Raw.strOfNum (1/2)) Raw.null 0, 0)]).bucket.tokens < 0 := by
  norm_num [Counter.runList, Counter.run, Counter.fetch, Counter.admission,
    Counter.should_block, Counter.respond, Counter.fillChoice, Counter.fill_amount,
    Configuration.make, normalizeValue, jsNormalize, toNumber, JSNum.falsy, JSNum.toQ,
    ActorState.init, Bucket.new, Bucket.set_size, Bucket.is_active, Bucket.take,
    Bucket.fill, Behavior.Blocking]

/-- Witness for C6 on a one-request sequence with a positive integral
quota. -/
theorem claim6_witness :
    (∀ x ∈ [((⟨some 10, some 10, 0⟩ : Configuration), (0 : ℚ))], GoodCfg x.1) ∧
    List.Chain (· ≤ ·) (0 : ℚ)
      ([((⟨some 10, some 10, 0⟩ : Configuration), (0 : ℚ))].map Prod.snd) ∧
    (0 ≤ (Counter.runList ActorState.init
        [((⟨some 10, some 10, 0⟩ : Configuration), (0 : ℚ))]).bucket.tokens ∧
      (Counter.runList ActorState.init
        [((⟨some 10, some 10, 0⟩ : Configuration), (0 : ℚ))]).bucket.tokens ≤
        (Counter.runList ActorState.init
          [((⟨some 10, some 10, 0⟩ : Configuration), (0 : ℚ))]).bucket.max) := by
  have hg : ∀ x ∈ [((⟨some 10, some 10, 0⟩ : Configuration), (0 : ℚ))], GoodCfg x.1 := by
    intro x hx
    rw [List.mem_singleton] at hx
    subst hx
    exact ⟨Or.inr ⟨10, by norm_num, by norm_num⟩, Or.inr ⟨10, by norm_num, by norm_num⟩⟩
  have hc : List.Chain (· ≤ ·) (0 : ℚ)
      ([((⟨some 10, some 10, 0⟩ : Configuration), (0 : ℚ))].map Prod.snd) := by
    simp [List.chain_cons]
  exact ⟨hg, hc, claim6_capacity_bound _ hg hc⟩
